import Mathlib

/-!
Verification of the sales-dashboard data pipeline (`src/app/app.py`).

The pipeline is embedded shallowly:
* a pandas `DataFrame` row of the loaded table becomes a `Row` record
  (columns `Order ID`, `Order Date`, `Product`, `Category`, `Region`,
  `Sales`, `order_month`); a view is a `List Row` in row order;
* `Sales` amounts are exact rationals (ℚ), dates are an `Int` day ordinal;
* the filter mask (app.py lines 75-82), the KPI block (lines 86-97), the
  top-products block (lines 118-124) and the export function
  (`to_excel_bytes`, lines 29-43) are translated definition by definition;
* pandas `groupby(k)["Sales"].sum()` (with its default `sort=True`) becomes
  `groupBySum`: the distinct keys in ascending order, each paired with the
  sum of `Sales` over the rows carrying that key;
* `Series.sort_values(ascending=False)` is modelled relationally: numpy
  documents its default `kind='quicksort'` as not stable, so the library
  guarantees only some reordering of the series that is descending in the
  value, with the relative order of equal values implementation-defined;
  `SortValuesDesc` holds of every output the call may produce;
* the loader (`load_data`, lines 18-23) is modelled separately on raw
  columnar CSV data, including the pandas `read_csv(parse_dates=...)`
  semantics it relies on: a missing `parse_dates` column raises, while a
  column whose values fail to parse is kept as strings without an error.
-/

/-- A row of the loaded sales table: the columns of `sales_cleaned.csv`
after `load_data` has parsed `Order Date` and added `order_month`. -/
structure Row where
  order_id : String
  order_date : Int
  product : String
  category : String
  region : String
  sales : ℚ
  order_month : String
deriving DecidableEq

/-- The filter mask of app.py lines 75-80 applied via `df.loc[mask]`
(line 82): date in the inclusive range, region and category in the
selected lists. -/
def filterRows (t : List Row) (start end_ : Int)
    (regions categories : List String) : List Row :=
  t.filter (fun r =>
    decide (start ≤ r.order_date) && decide (r.order_date ≤ end_) &&
    decide (r.region ∈ regions) && decide (r.category ∈ categories))

/-- `total_revenue = df_f["Sales"].sum()` (app.py line 86). -/
def total_revenue (view : List Row) : ℚ :=
  (view.map Row.sales).sum

/-- `total_orders = df_f["Order ID"].nunique()` (app.py line 87). -/
def total_orders (view : List Row) : ℕ :=
  ((view.map Row.order_id).dedup).length

/-- `avg_order_value = total_revenue / total_orders if total_orders > 0
else 0` (app.py line 88). -/
def avg_order_value (view : List Row) : ℚ :=
  if 0 < total_orders view then
    total_revenue view / (total_orders view : ℚ)
  else 0

/-- The distinct values of a key column in ascending order: the index
produced by `df.groupby(key)` with its default `sort=True`. -/
def keysOf (key : Row → String) (view : List Row) : List String :=
  ((view.map key).dedup).mergeSort (fun a b => decide (a ≤ b))

/-- `df.groupby(key)["Sales"].sum()` (pandas default `sort=True`): each
distinct key, in ascending order, paired with the sum of `Sales` over
the rows carrying it. -/
def groupBySum (key : Row → String) (view : List Row) : List (String × ℚ) :=
  (keysOf key view).map (fun k =>
    (k, ((view.filter (fun r => decide (key r = k))).map Row.sales).sum))

/-- `monthly_sales = df_f.groupby("order_month")["Sales"].sum().sort_index()`
(app.py line 90); `groupBySum` already returns its index ascending, so
`sort_index()` is the identity on it. -/
def monthly_sales (view : List Row) : List (String × ℚ) :=
  groupBySum Row.order_month view

/-- App.py lines 92-97 on a monthly series: `np.nan` (absent) unless the
series has at least two entries and `iloc[-2]` is nonzero, in which case
`(iloc[-1] - iloc[-2]) / iloc[-2] * 100`. -/
def momGrowthSeries (m : List (String × ℚ)) : Option ℚ :=
  if 2 ≤ m.length then
    match m[m.length - 2]?, m[m.length - 1]? with
    | some prev, some last =>
        if prev.2 = 0 then none
        else some ((last.2 - prev.2) / prev.2 * 100)
    | _, _ => none
  else none

/-- `mom_growth` (app.py lines 92-97) computed from the view. -/
def mom_growth (view : List Row) : Option ℚ :=
  momGrowthSeries (monthly_sales view)

/-- The comparison used by `sort_values(ascending=False)` on the
(key, summed Sales) pairs: descending by the summed value. -/
def salesDescBool (a b : String × ℚ) : Bool :=
  decide (b.2 ≤ a.2)

/-- `Series.sort_values(ascending=False)` (app.py line 121), relationally:
numpy's default `kind='quicksort'` is documented as not stable, so the
library guarantees only that the result reorders the series descending in
the value; which reordering is produced — in particular the relative
order of entries with equal values — is implementation-defined.
`SortValuesDesc g l` holds of every output `l` the call may produce on
input `g`. -/
def SortValuesDesc (g l : List (String × ℚ)) : Prop :=
  l.Perm g ∧ l.Pairwise (fun a b : String × ℚ => b.2 ≤ a.2)

/-- `top_products` (app.py lines 118-124):
`df_f.groupby("Product")["Sales"].sum().sort_values(ascending=False).head(5)`
— an admissible result is the 5-prefix of an admissible descending value
sort of the product roll-up. -/
def IsTopProducts (view : List Row) (tp : List (String × ℚ)) : Prop :=
  ∃ l, SortValuesDesc (groupBySum Row.product view) l ∧ tp = l.take 5

/-- The contents of one sheet of the exported workbook: either the raw
filtered rows or a two-column (key, summed Sales) roll-up. -/
inductive SheetData where
  | raw : List Row → SheetData
  | rollup : List (String × ℚ) → SheetData
deriving DecidableEq

/-- `to_excel_bytes` (app.py lines 29-43): the logical content of the
workbook written to the buffer, as the ordered list of (sheet name,
sheet contents) pairs. -/
def to_excel_bytes (view : List Row) : List (String × SheetData) :=
  [("raw_data", SheetData.raw view),
   ("product_sales", SheetData.rollup (groupBySum Row.product view)),
   ("category_sales", SheetData.rollup (groupBySum Row.category view)),
   ("region_sales", SheetData.rollup (groupBySum Row.region view))]

/-! ### The loader (`load_data`, app.py lines 18-23)

`load_data` is `pd.read_csv(path, parse_dates=["Order Date"])` followed by
deriving `order_month` from `df["Order Date"].dt` when absent.  It is
modelled on raw columnar data: a `RawTable` is the CSV as a list of
(column name, cell strings) pairs.  The relevant pandas semantics,
modelled here from the pandas documentation of `read_csv`:
* a `parse_dates` column that is not in the file raises
  (`Missing column provided to parse_dates`);
* a `parse_dates` column whose values cannot all be parsed is returned
  unaltered as strings (object dtype), with no error;
* the `.dt` accessor raises on a non-datetime (string) column.
The date parser itself is a parameter `parseDate`, the month derivation
(`dt.to_period("M").astype(str)`) a parameter monthOf. -/

/-- A raw CSV table: columns in file order, each with its cell strings. -/
abbrev RawTable := List (String × List String)

/-- A loaded pandas column: either object dtype (strings) or a parsed
datetime column. -/
inductive ColData where
  | strCol : List String → ColData
  | dateCol : List Int → ColData
deriving DecidableEq

/-- A loaded pandas table: columns in order with their data. -/
abbrev PTable := List (String × ColData)

/-- Column-wise action of `read_csv(..., parse_dates=["Order Date"])` once
the column exists: the `Order Date` column becomes a datetime column when
every cell parses, and is kept as strings otherwise; all other columns
stay strings. -/
def parseCols (parseDate : String → Option Int) (t : RawTable) : PTable :=
  t.map (fun c =>
    if c.1 = "Order Date" then
      match c.2.mapM parseDate with
      | some ds => (c.1, ColData.dateCol ds)
      | none => (c.1, ColData.strCol c.2)
    else (c.1, ColData.strCol c.2))

/-- `pd.read_csv(path, parse_dates=["Order Date"])` (app.py line 20):
raises when the `parse_dates` column is absent, otherwise `parseCols`. -/
def read_csv (parseDate : String → Option Int) (t : RawTable) :
    Except String PTable :=
  if "Order Date" ∈ t.map Prod.fst then
    Except.ok (parseCols parseDate t)
  else
    Except.error "Missing column provided to parse_dates: Order Date"

/-- Look a column up by name, as `df[name]` does. -/
def lookupCol (p : PTable) (name : String) : Option ColData :=
  (p.find? (fun c => decide (c.1 = name))).map Prod.snd

/-- `load_data` (app.py lines 18-23): read the CSV parsing `Order Date`,
then, when `order_month` is absent, derive it through the `.dt` accessor,
which raises on a column that stayed object dtype. -/
def load_data (parseDate : String → Option Int) (monthOf : Int → String)
    (t : RawTable) : Except String PTable :=
  match read_csv parseDate t with
  | Except.error e => Except.error e
  | Except.ok p =>
      if "order_month" ∈ p.map Prod.fst then Except.ok p
      else
        match lookupCol p "Order Date" with
        | some (ColData.dateCol ds) =>
            Except.ok (p ++ [("order_month", ColData.strCol (ds.map monthOf))])
        | _ => Except.error "Can only use .dt accessor with datetimelike values"

/-- Split a character list at each dash. -/
def splitOnDash : List Char → List (List Char)
  | [] => [[]]
  | c :: rest =>
      if c = '-' then [] :: splitOnDash rest
      else
        match splitOnDash rest with
        | g :: gs => (c :: g) :: gs
        | [] => [[c]]

/-- The numeric value of a decimal digit character, if it is one. -/
def charDigit (c : Char) : Option ℕ :=
  if c.isDigit then some (c.toNat - 48) else none

/-- The value of a nonempty string of decimal digits. -/
def digitsVal (cs : List Char) : Option ℕ :=
  match cs with
  | [] => none
  | _ =>
      cs.foldl (fun acc c =>
        match acc, charDigit c with
        | some n, some d => some (n * 10 + d)
        | _, _ => none) (some 0)

/-- Modelled from the spec: a concrete calendar-date parser for dates
written like the spec's example rows (`2024-01-05`), standing in for the
external pandas date parser, which is not part of this repository.  The
result is a day ordinal that orders chronologically. -/
def parseDateYMD (s : String) : Option Int :=
  match splitOnDash s.toList with
  | [y, m, d] =>
      match digitsVal y, digitsVal m, digitsVal d with
      | some yn, some mn, some dn =>
          if 1 ≤ mn ∧ mn ≤ 12 ∧ 1 ≤ dn ∧ dn ≤ 31 then
            some (((yn * 12 + (mn - 1)) * 31 + (dn - 1) : ℕ) : ℤ)
          else none
      | _, _, _ => none
  | _ => none

/-- Modelled from the spec: the month bucket of a day ordinal produced by
`parseDateYMD` (`dt.to_period("M").astype(str)` of the external pandas
library) — a deterministic function of the date. -/
def monthOfYMD (d : Int) : String :=
  let m := d / 31
  toString (m / 12) ++ "-" ++ toString (m % 12 + 1)

/-- `Except.isOk` restated locally so statements can evaluate it. -/
def exceptOk {ε α : Type} (e : Except ε α) : Bool :=
  match e with
  | Except.ok _ => true
  | Except.error _ => false

/-- A concrete row (the spec's first example row), used to instantiate
witnesses. -/
def sampleRow : Row :=
  { order_id := "O1", order_date := 4, product := "WidgetA",
    category := "Cat1", region := "East", sales := 100,
    order_month := "2024-01" }

/-- Two rows with distinct products and equal sales, whose product
roll-up therefore carries a tie. -/
def tieRowA : Row :=
  { order_id := "O1", order_date := 1, product := "WidgetA",
    category := "Cat1", region := "East", sales := 10,
    order_month := "2024-01" }

/-- The second of the two equal-sales rows; its product `WidgetB` comes
after `WidgetA` in the grouping. -/
def tieRowB : Row :=
  { order_id := "O1", order_date := 1, product := "WidgetB",
    category := "Cat1", region := "East", sales := 10,
    order_month := "2024-01" }

/-- The full roll-up property of an export sheet: its key set is exactly
the distinct values of the grouping column over the view (not limited to
a top 5), one row per distinct key, each key paired with its summed
`Sales`. -/
def rollupFull (key : Row → String) (view : List Row) : Prop :=
  ((groupBySum key view).map Prod.fst).Nodup ∧
  (∀ k : String,
    k ∈ (groupBySum key view).map Prod.fst ↔ ∃ r ∈ view, key r = k) ∧
  (∀ kv ∈ groupBySum key view,
    kv.2 = ((view.filter (fun r => decide (key r = kv.1))).map Row.sales).sum)

/-- A concrete CSV that has every required column except `Sales` (and an
`order_month` column), used to exercise the loader. -/
def missingSalesCSV : RawTable :=
  [("Order ID", ["O1"]), ("Order Date", ["2024-01-05"]),
   ("Product", ["WidgetA"]), ("Category", ["Cat1"]),
   ("Region", ["East"]), ("order_month", ["2024-01"])]

/-! ### Helper lemmas about the grouping -/

theorem decide_le_trans_string (a b c : String)
    (h1 : decide (a ≤ b) = true) (h2 : decide (b ≤ c) = true) :
    decide (a ≤ c) = true := by
  rw [decide_eq_true_eq] at h1 h2 ⊢
  exact le_trans h1 h2

theorem decide_le_total_string (a b : String) :
    (decide (a ≤ b) || decide (b ≤ a)) = true := by
  rcases le_total a b with h | h <;> simp [h]

theorem keysOf_nodup (key : Row → String) (view : List Row) :
    (keysOf key view).Nodup :=
  (List.mergeSort_perm _ _).symm.nodup (List.nodup_dedup _)

theorem keysOf_sorted (key : Row → String) (view : List Row) :
    (keysOf key view).Pairwise (fun a b : String => a ≤ b) := by
  have h := List.sorted_mergeSort decide_le_trans_string decide_le_total_string
    ((view.map key).dedup)
  exact h.imp (fun hab => by rwa [decide_eq_true_eq] at hab)

theorem mem_keysOf {key : Row → String} {view : List Row} {k : String} :
    k ∈ keysOf key view ↔ ∃ r ∈ view, key r = k := by
  unfold keysOf
  rw [List.mem_mergeSort, List.mem_dedup, List.mem_map]

theorem groupBySum_map_fst (key : Row → String) (view : List Row) :
    (groupBySum key view).map Prod.fst = keysOf key view := by
  unfold groupBySum
  rw [List.map_map]
  exact List.map_id _

theorem groupBySum_val {key : Row → String} {view : List Row}
    {kv : String × ℚ} (h : kv ∈ groupBySum key view) :
    kv.2 = ((view.filter (fun r => decide (key r = kv.1))).map Row.sales).sum := by
  unfold groupBySum at h
  obtain ⟨k, _, rfl⟩ := List.mem_map.mp h
  rfl

/-- Summing an indicator over a duplicate-free key list that contains the
key yields the tagged value. -/
theorem sum_map_ite_of_not_mem (a : String) (s : ℚ) :
    ∀ (keys : List String), a ∉ keys →
      (keys.map (fun k => if a = k then s else 0)).sum = 0 := by
  intro keys h
  induction keys with
  | nil => simp
  | cons k ks ih =>
      rw [List.mem_cons, not_or] at h
      simp only [List.map_cons, List.sum_cons, if_neg h.1, ih h.2, zero_add]

theorem sum_map_ite_of_nodup (a : String) (s : ℚ) :
    ∀ (keys : List String), keys.Nodup → a ∈ keys →
      (keys.map (fun k => if a = k then s else 0)).sum = s := by
  intro keys hnd ha
  induction keys with
  | nil => cases ha
  | cons k ks ih =>
      rw [List.nodup_cons] at hnd
      rcases List.mem_cons.mp ha with h | h
      · subst h
        simp only [List.map_cons, List.sum_cons, eq_self_iff_true, if_true,
          sum_map_ite_of_not_mem a s ks hnd.1, add_zero]
      · have hne : a ≠ k := fun hak => hnd.1 (hak ▸ h)
        simp only [List.map_cons, List.sum_cons, if_neg hne,
          ih hnd.2 h, zero_add]

/-- Summing the per-key filtered sums over a duplicate-free, complete key
list recovers the total sum: the grouped roll-up partitions the rows. -/
theorem sum_filter_partition (key : Row → String) :
    ∀ (view : List Row) (keys : List String), keys.Nodup →
      (∀ r ∈ view, key r ∈ keys) →
      (keys.map (fun k =>
        ((view.filter (fun r => decide (key r = k))).map Row.sales).sum)).sum
        = (view.map Row.sales).sum := by
  intro view
  induction view with
  | nil => intro keys _ _; simp
  | cons r rest ih =>
      intro keys hnd hc
      have hstep : ∀ k : String,
          (((r :: rest).filter (fun x => decide (key x = k))).map Row.sales).sum
            = (if key r = k then r.sales else 0)
              + ((rest.filter (fun x => decide (key x = k))).map Row.sales).sum := by
        intro k
        by_cases h : key r = k
        · simp [List.filter_cons, h]
        · simp [List.filter_cons, h]
      calc (keys.map (fun k =>
              (((r :: rest).filter (fun x => decide (key x = k))).map Row.sales).sum)).sum
          = (keys.map (fun k =>
              (if key r = k then r.sales else 0)
                + ((rest.filter (fun x => decide (key x = k))).map Row.sales).sum)).sum := by
            rw [List.map_congr_left (fun k _ => hstep k)]
        _ = (keys.map (fun k => if key r = k then r.sales else 0)).sum
              + (keys.map (fun k =>
                  ((rest.filter (fun x => decide (key x = k))).map Row.sales).sum)).sum := by
            rw [List.sum_map_add]
        _ = r.sales + (rest.map Row.sales).sum := by
            rw [sum_map_ite_of_nodup (key r) r.sales keys hnd
                (hc r (List.mem_cons_self r rest)),
              ih keys hnd (fun x hx => hc x (List.mem_cons_of_mem r hx))]
        _ = ((r :: rest).map Row.sales).sum := by simp

/-! ### Claim theorems -/

/-- C1: for every filtered view, the sum of the per-region grouped
roll-up values (`region_sales`, app.py line 139) equals the KPI total
revenue (`total_revenue`, app.py line 86) of the same view. -/
theorem region_rollup_sum_eq_total_revenue (view : List Row) :
    ((groupBySum Row.region view).map Prod.snd).sum = total_revenue view := by
  unfold groupBySum total_revenue
  rw [List.map_map]
  exact sum_filter_partition Row.region view (keysOf Row.region view)
    (keysOf_nodup Row.region view)
    (fun r hr => mem_keysOf.mpr ⟨r, hr, rfl⟩)

/-- C2: the average order value equals total revenue divided by the
distinct order count when that count is positive, and is exactly 0 when
the count is zero; in this exact-rational model no division by zero and
hence no exception or NaN can arise. -/
theorem avg_order_value_policy (view : List Row) :
    (total_orders view = 0 → avg_order_value view = 0) ∧
    (0 < total_orders view →
      avg_order_value view = total_revenue view / (total_orders view : ℚ)) := by
  constructor
  · intro h
    unfold avg_order_value
    rw [if_neg]
    omega
  · intro h
    unfold avg_order_value
    rw [if_pos h]

/-- Witness for C2 at the empty view: zero distinct orders yields an
average order value of exactly 0. -/
theorem avg_order_value_policy_witness : avg_order_value [] = 0 :=
  (avg_order_value_policy []).1 rfl

/-- C5: whenever the start date is strictly after the end date, the
filter returns an empty view (and, being a total function, raises no
error). -/
theorem filterRows_empty_of_start_after_end (t : List Row)
    (start end_ : Int) (regions categories : List String)
    (h : end_ < start) :
    filterRows t start end_ regions categories = [] := by
  unfold filterRows
  rw [List.filter_eq_nil_iff]
  intro r _
  simp only [Bool.and_eq_true, decide_eq_true_eq, not_and]
  intro h1 h2
  omega

/-- Witness for C5 on a concrete one-row table with start 5 and end 3. -/
theorem filterRows_empty_of_start_after_end_witness :
    filterRows [sampleRow] 5 3 ["East"] ["Cat1"] = [] :=
  filterRows_empty_of_start_after_end _ 5 3 _ _ (by decide)

/-- C6: filtering an already-filtered view again with the same predicates
returns that view unchanged (idempotence). -/
theorem filterRows_idempotent (t : List Row) (start end_ : Int)
    (regions categories : List String) :
    filterRows (filterRows t start end_ regions categories)
        start end_ regions categories
      = filterRows t start end_ regions categories := by
  unfold filterRows
  rw [List.filter_filter]
  congr 1
  funext r
  rw [Bool.and_self]

/-- Reduction of `momGrowthSeries` once both trailing entries are known. -/
theorem momGrowthSeries_eq_of_getElem (m : List (String × ℚ))
    (h2 : 2 ≤ m.length) (prev last : String × ℚ)
    (hp : m[m.length - 2]? = some prev) (hl : m[m.length - 1]? = some last) :
    momGrowthSeries m
      = if prev.2 = 0 then none
        else some ((last.2 - prev.2) / prev.2 * 100) := by
  unfold momGrowthSeries
  rw [if_pos h2, hp, hl]

/-- C3: month-over-month growth on an ascending monthly series is absent
when the series has fewer than two entries or the second-to-last sum is
exactly zero, and otherwise equals `(last - secondToLast) / secondToLast
* 100` (app.py lines 92-97). -/
theorem mom_growth_series_cases (m : List (String × ℚ)) :
    (m.length < 2 → momGrowthSeries m = none) ∧
    (∀ (h2 : 2 ≤ m.length),
      ((m.get ⟨m.length - 2, by omega⟩).2 = 0 → momGrowthSeries m = none) ∧
      ((m.get ⟨m.length - 2, by omega⟩).2 ≠ 0 →
        momGrowthSeries m = some
          (((m.get ⟨m.length - 1, by omega⟩).2
              - (m.get ⟨m.length - 2, by omega⟩).2)
            / (m.get ⟨m.length - 2, by omega⟩).2 * 100))) := by
  constructor
  · intro h
    unfold momGrowthSeries
    rw [if_neg (by omega)]
  · intro h2
    have hm2 : m.length - 2 < m.length := by omega
    have hm1 : m.length - 1 < m.length := by omega
    have hp : m[m.length - 2]? = some (m.get ⟨m.length - 2, hm2⟩) := by
      rw [List.getElem?_eq_getElem hm2, List.get_eq_getElem]
    have hl : m[m.length - 1]? = some (m.get ⟨m.length - 1, hm1⟩) := by
      rw [List.getElem?_eq_getElem hm1, List.get_eq_getElem]
    have hred := momGrowthSeries_eq_of_getElem m h2 _ _ hp hl
    constructor
    · intro hz
      rw [hred, if_pos hz]
    · intro hnz
      rw [hred, if_neg hnz]

/-- Witness for C3: the spec's example series {2024-01: 150, 2024-02: 200}
gives a growth of 100/3 percent (33.33%). -/
theorem mom_growth_series_cases_witness :
    momGrowthSeries [("2024-01", (150 : ℚ)), ("2024-02", 200)]
      = some (100 / 3) := by
  have h := ((mom_growth_series_cases
      [("2024-01", (150 : ℚ)), ("2024-02", 200)]).2 (by decide)).2
    (by norm_num [List.get])
  rw [h]
  norm_num [List.get]

/-- C4: the filter returns exactly the rows of the table satisfying the
conjunction of the four predicates (inclusive date bounds, region and
category membership), preserving the original row order (it is a sublist
of the table); the source table, being a value, is not mutated. -/
theorem filterRows_exact_rows (t : List Row) (start end_ : Int)
    (regions categories : List String) :
    (filterRows t start end_ regions categories).Sublist t ∧
    (∀ r : Row, r ∈ filterRows t start end_ regions categories ↔
      r ∈ t ∧ (start ≤ r.order_date ∧ r.order_date ≤ end_ ∧
        r.region ∈ regions ∧ r.category ∈ categories)) ∧
    (∀ r : Row, (start ≤ r.order_date ∧ r.order_date ≤ end_ ∧
        r.region ∈ regions ∧ r.category ∈ categories) →
      (filterRows t start end_ regions categories).count r = t.count r) ∧
    (∀ r : Row, ¬(start ≤ r.order_date ∧ r.order_date ≤ end_ ∧
        r.region ∈ regions ∧ r.category ∈ categories) →
      (filterRows t start end_ regions categories).count r = 0) := by
  have hmem : ∀ r : Row, r ∈ filterRows t start end_ regions categories ↔
      r ∈ t ∧ (start ≤ r.order_date ∧ r.order_date ≤ end_ ∧
        r.region ∈ regions ∧ r.category ∈ categories) := by
    intro r
    unfold filterRows
    rw [List.mem_filter]
    simp only [Bool.and_eq_true, decide_eq_true_eq, and_assoc]
  refine ⟨List.filter_sublist t, hmem, ?_, ?_⟩
  · intro r hr
    unfold filterRows
    exact List.count_filter (by
      simp only [Bool.and_eq_true, decide_eq_true_eq]
      exact ⟨⟨⟨hr.1, hr.2.1⟩, hr.2.2.1⟩, hr.2.2.2⟩)
  · intro r hr
    rw [List.count_eq_zero]
    intro hm
    exact hr ((hmem r).mp hm).2

/-- Witness for C4 on a concrete table: the matching row is kept. -/
theorem filterRows_exact_rows_witness :
    sampleRow ∈ filterRows [sampleRow] 0 10 ["East"] ["Cat1"] :=
  ((filterRows_exact_rows _ 0 10 ["East"] ["Cat1"]).2.1 _).mpr
    ⟨List.mem_singleton_self _, by decide, by decide, by decide, by decide⟩

theorem salesDescBool_trans (a b c : String × ℚ)
    (h1 : salesDescBool a b = true) (h2 : salesDescBool b c = true) :
    salesDescBool a c = true := by
  simp only [salesDescBool, decide_eq_true_eq] at h1 h2 ⊢
  exact le_trans h2 h1

theorem salesDescBool_total (a b : String × ℚ) :
    (salesDescBool a b || salesDescBool b a) = true := by
  simp only [salesDescBool]
  rcases le_total a.2 b.2 with h | h <;> simp [h]

/-- The product roll-up of the two tied rows lists `WidgetA` before
`WidgetB` (ascending keys). -/
theorem keysOf_tie_eq :
    keysOf Row.product [tieRowA, tieRowB] = ["WidgetA", "WidgetB"] := by
  have hd : (([tieRowA, tieRowB].map Row.product).dedup)
      = ["WidgetA", "WidgetB"] := by decide
  have hpair : List.Pairwise
      (fun a b : String => decide (a ≤ b) = true) ["WidgetA", "WidgetB"] := by
    refine List.Pairwise.cons ?_ (List.pairwise_singleton _ _)
    intro b hb
    rw [List.mem_singleton] at hb
    subst hb
    rw [decide_eq_true_eq, String.le_iff_toList_le]
    decide
  unfold keysOf
  rw [hd]
  exact List.mergeSort_of_sorted hpair

theorem groupBySum_tie_eq :
    groupBySum Row.product [tieRowA, tieRowB]
      = [("WidgetA", (10 : ℚ)), ("WidgetB", 10)] := by
  unfold groupBySum
  rw [keysOf_tie_eq]
  simp [tieRowA, tieRowB]

/-- The tie reordered against grouping order is an admissible
top-products result: it is a descending (here: all-equal) reordering of
the roll-up. -/
theorem isTopProducts_tie_example :
    IsTopProducts [tieRowA, tieRowB]
      [("WidgetB", (10 : ℚ)), ("WidgetA", 10)] := by
  unfold IsTopProducts SortValuesDesc
  refine ⟨[("WidgetB", (10 : ℚ)), ("WidgetA", 10)], ⟨?_, ?_⟩, rfl⟩
  · rw [groupBySum_tie_eq]
    exact List.Perm.swap _ _ _
  · decide

/-- C7 (amended): every admissible `top_products` result has at most 5
(product, summed Sales) entries, ordered by descending summed Sales, all
drawn from the product roll-up; an admissible result always exists.  The
tie order between equal sums is implementation-defined (numpy's default
quicksort is not stable) and is not part of the guarantee. -/
theorem top_products_top5_desc (view : List Row) :
    (∃ tp, IsTopProducts view tp) ∧
    (∀ tp, IsTopProducts view tp →
      tp.length ≤ 5 ∧
      tp.Pairwise (fun a b : String × ℚ => b.2 ≤ a.2) ∧
      ∀ kv ∈ tp, kv ∈ groupBySum Row.product view) := by
  constructor
  · unfold IsTopProducts SortValuesDesc
    refine ⟨((groupBySum Row.product view).mergeSort salesDescBool).take 5,
      (groupBySum Row.product view).mergeSort salesDescBool,
      ⟨List.mergeSort_perm _ _, ?_⟩, rfl⟩
    exact (List.sorted_mergeSort salesDescBool_trans salesDescBool_total
      (groupBySum Row.product view)).imp
      (fun h => by simpa only [salesDescBool, decide_eq_true_eq] using h)
  · intro tp htp
    unfold IsTopProducts SortValuesDesc at htp
    obtain ⟨l, ⟨hperm, hsort⟩, rfl⟩ := htp
    refine ⟨?_, List.Pairwise.sublist (List.take_sublist 5 l) hsort, ?_⟩
    · rw [List.length_take]
      exact min_le_left _ _
    · intro kv hkv
      exact hperm.subset (List.take_subset 5 l hkv)

/-- Witness for C7's amended theorem at a concrete admissible result. -/
theorem top_products_top5_desc_witness :
    ([("WidgetB", (10 : ℚ)), ("WidgetA", 10)] : List (String × ℚ)).length ≤ 5 ∧
    ([("WidgetB", (10 : ℚ)), ("WidgetA", 10)] : List (String × ℚ)).Pairwise
      (fun a b => b.2 ≤ a.2) :=
  ⟨((top_products_top5_desc [tieRowA, tieRowB]).2 _
      isTopProducts_tie_example).1,
   ((top_products_top5_desc [tieRowA, tieRowB]).2 _
      isTopProducts_tie_example).2.1⟩

/-- Counterexample to C7 as stated: the product roll-up of
`[tieRowA, tieRowB]` encounters `WidgetA` before `WidgetB` with equal
sums, yet `[("WidgetB", 10), ("WidgetA", 10)]` — the tie in the opposite
order — is an admissible top-products result: the unstable sort the code
calls is free to order the tie either way, so the program does not
guarantee the claimed first-encountered tie-break. -/
theorem top_products_tie_counterexample :
    groupBySum Row.product [tieRowA, tieRowB]
      = [("WidgetA", (10 : ℚ)), ("WidgetB", 10)] ∧
    IsTopProducts [tieRowA, tieRowB]
      [("WidgetB", (10 : ℚ)), ("WidgetA", 10)] ∧
    ¬ ([("WidgetA", (10 : ℚ)), ("WidgetB", 10)] : List (String × ℚ)).Sublist
        [("WidgetB", (10 : ℚ)), ("WidgetA", 10)] := by
  refine ⟨groupBySum_tie_eq, isTopProducts_tie_example, ?_⟩
  intro h
  exact absurd (h.eq_of_length rfl) (by decide)

/-- The full roll-up property holds for every `groupBySum` result. -/
theorem rollupFull_holds (key : Row → String) (view : List Row) :
    rollupFull key view := by
  refine ⟨?_, ?_, fun kv h => groupBySum_val h⟩
  · rw [groupBySum_map_fst]
    exact keysOf_nodup key view
  · intro k
    rw [groupBySum_map_fst]
    exact mem_keysOf

/-- C8: the export has exactly four sheets in the fixed order `raw_data`,
`product_sales`, `category_sales`, `region_sales`; `raw_data` is the full
filtered view, one row per record with no aggregation, and each roll-up
sheet (a two-column key/Sales table) maps each distinct group key of the
view — the full key set, not a top 5 — to its summed Sales. -/
theorem to_excel_bytes_sheets (view : List Row) :
    ((to_excel_bytes view).map Prod.fst
      = ["raw_data", "product_sales", "category_sales", "region_sales"]) ∧
    ((to_excel_bytes view)[0]? = some ("raw_data", SheetData.raw view)) ∧
    ((to_excel_bytes view)[1]?
      = some ("product_sales", SheetData.rollup (groupBySum Row.product view))) ∧
    ((to_excel_bytes view)[2]?
      = some ("category_sales", SheetData.rollup (groupBySum Row.category view))) ∧
    ((to_excel_bytes view)[3]?
      = some ("region_sales", SheetData.rollup (groupBySum Row.region view))) ∧
    rollupFull Row.product view ∧
    rollupFull Row.category view ∧
    rollupFull Row.region view :=
  ⟨rfl, rfl, rfl, rfl, rfl, rollupFull_holds Row.product view,
    rollupFull_holds Row.category view, rollupFull_holds Row.region view⟩

/-- C10: every grouped export sheet of `to_excel_bytes` lists its rows in
strictly ascending key order (hence one row per distinct key), and the
keys of each roll-up are exactly the distinct column values of the view. -/
theorem export_rollups_sorted_keys (view : List Row) :
    (∀ (name : String) (g : List (String × ℚ)),
      (name, SheetData.rollup g) ∈ to_excel_bytes view →
      (g.map Prod.fst).Pairwise (fun a b : String => a < b)) ∧
    (∀ k : String, k ∈ (groupBySum Row.product view).map Prod.fst ↔
      ∃ r ∈ view, r.product = k) ∧
    (∀ k : String, k ∈ (groupBySum Row.category view).map Prod.fst ↔
      ∃ r ∈ view, r.category = k) ∧
    (∀ k : String, k ∈ (groupBySum Row.region view).map Prod.fst ↔
      ∃ r ∈ view, r.region = k) := by
  have hlt : ∀ key : Row → String,
      ((groupBySum key view).map Prod.fst).Pairwise
        (fun a b : String => a < b) := by
    intro key
    rw [groupBySum_map_fst]
    have h1 := keysOf_sorted key view
    have h2 : (keysOf key view).Pairwise (fun a b : String => a ≠ b) :=
      keysOf_nodup key view
    exact (h1.and h2).imp (fun h => lt_of_le_of_ne h.1 h.2)
  refine ⟨?_, (rollupFull_holds Row.product view).2.1,
    (rollupFull_holds Row.category view).2.1,
    (rollupFull_holds Row.region view).2.1⟩
  intro name g hmem
  simp only [to_excel_bytes, List.mem_cons, List.not_mem_nil, or_false,
    Prod.mk.injEq] at hmem
  rcases hmem with ⟨h1, h2⟩ | ⟨h1, h2⟩ | ⟨h1, h2⟩ | ⟨h1, h2⟩
  · exact absurd h2 (by simp)
  · obtain rfl : g = groupBySum Row.product view := by
      injection h2
    exact hlt Row.product
  · obtain rfl : g = groupBySum Row.category view := by
      injection h2
    exact hlt Row.category
  · obtain rfl : g = groupBySum Row.region view := by
      injection h2
    exact hlt Row.region

/-- Witness for C10: the product sheet of a one-row view has strictly
ascending keys. -/
theorem export_rollups_sorted_keys_witness :
    ((groupBySum Row.product [sampleRow]).map Prod.fst).Pairwise
      (fun a b : String => a < b) :=
  (export_rollups_sorted_keys [sampleRow]).1 "product_sales" _
    (by simp [to_excel_bytes])

/-! ### Loader behavior lemmas -/

theorem parseCols_map_fst (pd : String → Option Int) (t : RawTable) :
    (parseCols pd t).map Prod.fst = t.map Prod.fst := by
  unfold parseCols
  rw [List.map_map]
  apply List.map_congr_left
  intro c _
  simp only [Function.comp_apply]
  by_cases h : c.1 = "Order Date"
  · rw [if_pos h]
    cases c.2.mapM pd <;> rfl
  · rw [if_neg h]

theorem lookupCol_parseCols (pd : String → Option Int) :
    ∀ (t : RawTable), (t.map Prod.fst).Nodup →
      ∀ vals, ("Order Date", vals) ∈ t →
      lookupCol (parseCols pd t) "Order Date"
        = some (match vals.mapM pd with
                | some ds => ColData.dateCol ds
                | none => ColData.strCol vals) := by
  intro t
  induction t with
  | nil => intro _ vals hv; cases hv
  | cons c cs ih =>
      intro hnd vals hv
      rw [List.map_cons, List.nodup_cons] at hnd
      by_cases h : c.1 = "Order Date"
      · have hc : c = ("Order Date", vals) := by
          rcases List.mem_cons.mp hv with h1 | h1
          · exact h1.symm
          · exact absurd (h ▸ List.mem_map.mpr ⟨_, h1, rfl⟩) hnd.1
        subst hc
        unfold parseCols lookupCol
        rw [List.map_cons]
        cases hm : vals.mapM pd with
        | none => rw [List.find?_cons_of_pos _ (by simp [hm])]; simp [hm]
        | some ds => rw [List.find?_cons_of_pos _ (by simp [hm])]; simp [hm]
      · have hv2 : ("Order Date", vals) ∈ cs := by
          rcases List.mem_cons.mp hv with h1 | h1
          · exact absurd (congrArg Prod.fst h1.symm) h
          · exact h1
        have hrec := ih hnd.2 vals hv2
        unfold parseCols lookupCol at hrec ⊢
        rw [List.map_cons, List.find?_cons_of_neg _ (by
          by_cases hm : c.1 = "Order Date"
          · exact absurd hm h
          · simp [hm, h])]
        exact hrec

/-- Reduction of `load_data` once `read_csv` has succeeded. -/
theorem load_data_of_read_ok (parseDate : String → Option Int)
    (monthOf : Int → String) (t : RawTable) (p : PTable)
    (hp : read_csv parseDate t = Except.ok p) :
    load_data parseDate monthOf t
      = (if "order_month" ∈ p.map Prod.fst then Except.ok p
         else match lookupCol p "Order Date" with
           | some (ColData.dateCol ds) =>
               Except.ok (p ++ [("order_month", ColData.strCol (ds.map monthOf))])
           | _ =>
               Except.error "Can only use .dt accessor with datetimelike values") := by
  unfold load_data
  rw [hp]

/-- C9 (amended): the only load-time failures come from the `Order Date`
column.  Loading errors when `Order Date` is absent (the `parse_dates`
check of `read_csv`), and when some date fails to parse while
`order_month` is absent (the `.dt` accessor on an object column);
when `order_month` is present, unparseable dates are passed through
unparsed (the column stays raw strings) with no error, and no other
required column is checked at load time. -/
theorem load_data_actual_behavior (parseDate : String → Option Int)
    (monthOf : Int → String) (t : RawTable)
    (hnd : (t.map Prod.fst).Nodup) :
    (("Order Date" ∉ t.map Prod.fst) →
        load_data parseDate monthOf t
          = Except.error "Missing column provided to parse_dates: Order Date") ∧
    (∀ vals, ("Order Date", vals) ∈ t → vals.mapM parseDate = none →
        ("order_month" ∉ t.map Prod.fst →
          load_data parseDate monthOf t
            = Except.error "Can only use .dt accessor with datetimelike values") ∧
        ("order_month" ∈ t.map Prod.fst →
          load_data parseDate monthOf t = Except.ok (parseCols parseDate t) ∧
          lookupCol (parseCols parseDate t) "Order Date"
            = some (ColData.strCol vals))) ∧
    (∀ vals ds, ("Order Date", vals) ∈ t → vals.mapM parseDate = some ds →
        ("order_month" ∉ t.map Prod.fst →
          load_data parseDate monthOf t
            = Except.ok (parseCols parseDate t
                ++ [("order_month", ColData.strCol (ds.map monthOf))])) ∧
        ("order_month" ∈ t.map Prod.fst →
          load_data parseDate monthOf t = Except.ok (parseCols parseDate t))) := by
  refine ⟨?_, ?_, ?_⟩
  · intro h
    unfold load_data read_csv
    rw [if_neg h]
  · intro vals hv hparse
    have hOD : "Order Date" ∈ t.map Prod.fst := List.mem_map.mpr ⟨_, hv, rfl⟩
    have hread : read_csv parseDate t = Except.ok (parseCols parseDate t) := by
      unfold read_csv
      rw [if_pos hOD]
    have hlook := lookupCol_parseCols parseDate t hnd vals hv
    rw [hparse] at hlook
    have hld := load_data_of_read_ok parseDate monthOf t _ hread
    constructor
    · intro hom
      have hom2 : "order_month" ∉ (parseCols parseDate t).map Prod.fst := by
        rw [parseCols_map_fst]
        exact hom
      rw [hld, if_neg hom2, hlook]
    · intro hom
      have hom2 : "order_month" ∈ (parseCols parseDate t).map Prod.fst := by
        rw [parseCols_map_fst]
        exact hom
      exact ⟨by rw [hld, if_pos hom2], hlook⟩
  · intro vals ds hv hparse
    have hOD : "Order Date" ∈ t.map Prod.fst := List.mem_map.mpr ⟨_, hv, rfl⟩
    have hread : read_csv parseDate t = Except.ok (parseCols parseDate t) := by
      unfold read_csv
      rw [if_pos hOD]
    have hlook := lookupCol_parseCols parseDate t hnd vals hv
    rw [hparse] at hlook
    have hld := load_data_of_read_ok parseDate monthOf t _ hread
    constructor
    · intro hom
      have hom2 : "order_month" ∉ (parseCols parseDate t).map Prod.fst := by
        rw [parseCols_map_fst]
        exact hom
      rw [hld, if_neg hom2, hlook]
    · intro hom
      have hom2 : "order_month" ∈ (parseCols parseDate t).map Prod.fst := by
        rw [parseCols_map_fst]
        exact hom
      rw [hld, if_pos hom2]

/-- Witness for C9's amended theorem: a table without an `Order Date`
column fails to load. -/
theorem load_data_actual_behavior_witness :
    load_data parseDateYMD monthOfYMD [("foo", ["x"])]
      = Except.error "Missing column provided to parse_dates: Order Date" :=
  (load_data_actual_behavior parseDateYMD monthOfYMD [("foo", ["x"])]
    (by simp)).1 (by simp)

/-- Counterexample to C9 as stated: `missingSalesCSV` has no `Sales`
column — a required column per the claim — yet `load_data` returns
successfully instead of failing with a `LoadError`. -/
theorem load_data_missing_sales_loads :
    "Sales" ∉ missingSalesCSV.map Prod.fst ∧
    exceptOk (load_data parseDateYMD monthOfYMD missingSalesCSV) = true := by
  constructor
  · decide
  · decide

/-- Witness for C8 at the empty view: the four sheet names in their
fixed order. -/
theorem to_excel_bytes_sheets_witness :
    (to_excel_bytes []).map Prod.fst
      = ["raw_data", "product_sales", "category_sales", "region_sales"] :=
  (to_excel_bytes_sheets []).1
